import Mathlib

/-!
Verification of the kitHttp event-socket layer.

The definitions below are shallow embeddings of the Python sources:
  - `kitHttp/clientsocket.py` (class ClientSocket: the listener registry,
    `on`/`un`, `emit` with its correlation-token synthesis, `handle_message`,
    and the `connect` idempotence guard);
  - `kitHttp/socket.py` (`ask`, `todo`, `init_websocket`) — the
    `kit_http/websocket/main.py` variant is line-for-line the same dispatch;
  - `kitHttp/server.py` (`KitHttp.broadcast`).

Python dicts are embedded as association lists with dict semantics
(assignment replaces in place, `pop` removes the entry); Python
`str.startswith` is embedded via `List.isPrefixOf` on the character data;
`f"_{count}"` decimal rendering is `Nat.repr`, which is Lean's `toString`
for `Nat`.  JSON payloads are embedded by `Data`; nested arrays/objects are
elided (no claim distinguishes them), keeping only a flat string-valued
object, enough for the server's error payloads.  Handlers are opaque: the
registry stores a numeric handler id, and dispatch returns the list of
(handler id, payload) invocations it performs.  Client dispatch takes a
predicate saying which handler invocations raise, because
ClientSocket.handle_message runs `self.un` only after the callback handler
returns normally — a raising handler is caught by the outer
`except Exception` clause, skipping the removal.
-/

namespace KitHttpModel

/-- JSON-ish payload values, with Python truthiness relevant to
`if callback:` / `if value:` in the sources. -/
inductive Data where
  | null
  | bool (b : Bool)
  | num (n : Int)
  | str (s : String)
  | strObj (fields : List (String × String))
deriving DecidableEq

/-- Python truthiness of a payload (`None`, `False`, `0`, `""`, `{}` are falsy). -/
def dataTruthy : Data → Bool
  | Data.null => false
  | Data.bool b => b
  | Data.num n => !(n == 0)
  | Data.str s => !(s == "")
  | Data.strObj l => !l.isEmpty

/-- One wire message: `{"event": ..., "data": ..., "callback": ...}`.
`event` and `callback` are `Option` because `payload.get(...)` yields `None`
for a missing field. -/
structure Frame where
  event : Option String
  data : Data
  callback : Option String
deriving DecidableEq

/-- Truthiness of an optional string field (`None` and `""` are falsy). -/
def strTruthy : Option String → Bool
  | none => false
  | some s => !(s == "")

/-- The client listener registry `self.listener : Dict[str, Callable]`,
as an association list keyed by event name / correlation token, holding
opaque handler ids. -/
abbrev Listener := List (String × Nat)

/-- Dict lookup: `self.listener[k]` / `k in self.listener`. -/
def lookupKey : Listener → String → Option Nat
  | [], _ => none
  | (k0, v0) :: rest, k => if k0 = k then some v0 else lookupKey rest k

/-- Dict assignment `self.listener[k] = v` (ClientSocket.on): replaces the
existing entry in place, else appends. -/
def setKey : Listener → String → Nat → Listener
  | [], k, v => [(k, v)]
  | (k0, v0) :: rest, k, v =>
    if k0 = k then (k0, v) :: rest else (k0, v0) :: setKey rest k v

/-- Dict removal `self.listener.pop(k, None)` (ClientSocket.un). -/
def removeKey : Listener → String → Listener
  | [], _ => []
  | (k0, v0) :: rest, k => if k0 = k then rest else (k0, v0) :: removeKey rest k

/-- `self.listener.keys()`. -/
def keys (l : Listener) : List String := l.map Prod.fst

/-- `k in self.listener`. -/
def hasKey (l : Listener) (k : String) : Bool := (lookupKey l k).isSome

/-- Python `s.startswith(p)`. -/
def pyStartsWith (s p : String) : Bool := p.data.isPrefixOf s.data

/-- `len([k for k in self.listener.keys() if k.startswith(p)])` from
ClientSocket.emit. -/
def askCount (l : Listener) (p : String) : Nat :=
  (l.filter fun kv => pyStartsWith kv.1 p).length

/-- The correlation token ClientSocket.emit synthesizes when a callback is
supplied: `_evt = f"{event}_ask"; count = len(...); _evt += f"_{count}"`. -/
def askToken (l : Listener) (event : String) : String :=
  let evt := event ++ "_ask"
  evt ++ "_" ++ Nat.repr (askCount l evt)

/-- Client connection state: the listener dict plus the `connected`
property (`ws is not None and not ws.closed`). -/
structure ClientState where
  listener : Listener
  connected : Bool
deriving DecidableEq

/-- ClientSocket.emit.  `sendOk` models whether `self.ws.send_json` succeeds
or raises a transport error.  Returns the new state, the boolean result, and
the frames that went out on the wire. -/
def emit (c : ClientState) (event : String) (data : Data) (callback : Option Nat)
    (sendOk : Bool) : ClientState × Bool × List Frame :=
  if c.connected = false then (c, false, [])
  else
    match callback with
    | none =>
      if sendOk then (c, true, [⟨some event, data, none⟩]) else (c, false, [])
    | some cb =>
      let tok := askToken c.listener event
      let c2 : ClientState := ⟨setKey c.listener tok cb, c.connected⟩
      if sendOk then (c2, true, [⟨some event, data, some tok⟩])
      else (c2, false, [])

/-- The truthy callback id of an inbound message:
`callback_id = response.get("callback")` followed by the guard
`if callback_id and ...`. -/
def cbKey (f : Frame) : Option String :=
  match f.callback with
  | none => none
  | some s => if s = "" then none else some s

/-- The `elif event in self.listener` branch of ClientSocket.handle_message. -/
def eventDispatch (l : Listener) (f : Frame) : Listener × List (Nat × Data) :=
  match f.event with
  | none => (l, [])
  | some e =>
    match lookupKey l e with
    | some h => (l, [(h, f.data)])
    | none => (l, [])

/-- ClientSocket.handle_message on an already-parsed frame: if the frame
carries a truthy `callback` that is a registered key, invoke that handler
and `un` it; else dispatch on `event`; else drop.  Returns the new registry
and the (handler id, data) invocations performed.  `raises h` models
whether invoking handler `h` raises: the call happens (and is recorded)
either way, but `self.un(callback_id)` runs only after a normal return —
an exception is caught by the surrounding `except Exception` clause,
skipping the removal.  In the event branch nothing follows the call, so a
raising handler there is caught with no registry effect. -/
def handle_message (l : Listener) (f : Frame) (raises : Nat → Bool) :
    Listener × List (Nat × Data) :=
  match cbKey f with
  | some cid =>
    match lookupKey l cid with
    | some h =>
      if raises h then (l, [(h, f.data)])
      else (removeKey l cid, [(h, f.data)])
    | none => eventDispatch l f
  | none => eventDispatch l f

/-- How a server handler invocation finished: with a return value, or by
raising an exception with the given message. -/
inductive HandlerOutcome where
  | ret (v : Data)
  | raised (msg : String)
deriving DecidableEq

/-- What one server handler invocation did: the values it passed to the
reply capability (`ask`), in call order, and how it finished. -/
structure HandlerRun where
  replies : List Data
  outcome : HandlerOutcome
deriving DecidableEq

/-- Server dispatch `todo` from kitHttp/socket.py, observed as the frames
sent back on the connection.  The reply capability `ask` exists only when
the inbound `callback` is truthy, and each of its calls sends
`{"event": request["event"], "data": X, "callback": request["callback"]}`
provided the websocket is not closed (`run.replies` is ignored otherwise —
the handler has no capability to call).  After the handler returns, a
truthy return value is sent as `io.emit(event, value)`, a frame with no
callback; an exception is converted to an `error` frame by the
`except` clause. -/
def todo (wsClosed : Bool) (payload : Frame) (run : HandlerRun) : List Frame :=
  let replyFrames :=
    if strTruthy payload.callback && !wsClosed then
      run.replies.map fun x => Frame.mk payload.event x payload.callback
    else []
  match run.outcome with
  | HandlerOutcome.raised msg =>
    replyFrames ++ [⟨some "error", Data.strObj [("message", msg)], none⟩]
  | HandlerOutcome.ret v =>
    replyFrames ++ (if dataTruthy v then [⟨payload.event, v, none⟩] else [])

/-- One registered server connection as seen by KitHttp.broadcast: its id
and whether `io.emit` raises on it. -/
structure Conn where
  id : Nat
  fails : Bool
deriving DecidableEq

/-- The `for io in [...]: await io.emit(event, data)` loop of
KitHttp.broadcast: no exception handling, so the first failing send aborts
the iteration.  Returns the ids delivered to, and the id of the failing
connection if one aborted the loop. -/
def broadcastGo : List Conn → List Nat × Option Nat
  | [] => ([], none)
  | c :: rest =>
    if c.fails then ([], some c.id)
    else
      let r := broadcastGo rest
      (c.id :: r.1, r.2)

/-- The snapshot list comprehension of KitHttp.broadcast:
`[io for io in self._socket_clients.values() if filter is None or filter(io)]`. -/
def matchedConns (conns : List Conn) (filter : Option (Conn → Bool)) :
    List Conn :=
  match filter with
  | none => conns
  | some f => conns.filter f

/-- KitHttp.broadcast: snapshot `self._socket_clients.values()`, keep the
connections matching the optional filter, send to each in order. -/
def broadcast (conns : List Conn) (filter : Option (Conn → Bool)) :
    List Nat × Option Nat :=
  broadcastGo (matchedConns conns filter)

/-- One iteration of the server receive loop in init_websocket: a text frame
whose handling completes (todo ran, or an inner `except` caught), a text
frame whose handling raises out of the loop body (for instance the error
reply itself failing to send), or the logged-and-ignored message kinds. -/
inductive LoopStep where
  | textOk
  | textRaise
  | binaryMsg
  | closedMsg
  | errorMsg
  | otherMsg
deriving DecidableEq

/-- Whether the `async for` body ran to the end of the message stream
(`true`) or an exception escaped it (`false`). -/
def runLoop : List LoopStep → Bool
  | [] => true
  | LoopStep.textRaise :: _ => false
  | _ :: rest => runLoop rest

/-- Outcome of init_websocket: either the 400 "Not a WebSocket request"
response, or the function finished (normally or by propagating a loop
exception), carrying the final closed state of this websocket. -/
inductive InitOutcome where
  | badRequest
  | finished (wsClosed : Bool) (completedNormally : Bool)
deriving DecidableEq

/-- `self._socket_clients[_id] = io`: dict insertion keyed by connection id. -/
def insertId (reg : List Nat) (id : Nat) : List Nat :=
  if reg.contains id then reg else reg ++ [id]

/-- `self._socket_clients.pop(_id, None)`. -/
def popId (reg : List Nat) (id : Nat) : List Nat :=
  reg.filter fun x => !(x == id)

/-- init_websocket from kitHttp/socket.py over the connection registry
(the server holds one registry; only ids matter here).  The id is
registered *before* `ws.can_prepare` is checked; on failure the 400
response is returned with the entry still present.  On the websocket path
the receive loop runs over `steps`; `closedAtEnd` is whether the peer had
already closed the websocket when the loop ended.  The `finally` block
closes the websocket if it is not closed and pops the id, on every path out
of the loop. -/
def init_websocket (registry : List Nat) (id : Nat) (canPrepare : Bool)
    (steps : List LoopStep) (closedAtEnd : Bool) : List Nat × InitOutcome :=
  let reg1 := insertId registry id
  if canPrepare then
    let ok := runLoop steps
    let wsFinal := if closedAtEnd then closedAtEnd else true
    (popId reg1 id, InitOutcome.finished wsFinal ok)
  else (reg1, InitOutcome.badRequest)

/-- Client lifecycle counters for ClientSocket.connect: whether the
connect/receive loop is running, how many aiohttp sessions were ever
created, how many connect loops were ever entered. -/
structure CState where
  running : Bool
  sessions : Nat
  loops : Nat
deriving DecidableEq

/-- The head of ClientSocket.connect: `if self._running: log; return`, else
set `_running = True`, create a fresh session and enter the connect/receive
loop. -/
def connectGuard (s : CState) : CState :=
  if s.running then s else ⟨true, s.sessions + 1, s.loops + 1⟩

/-! Helper lemmas: decimal rendering, string facts, registry facts. -/

theorem isPrefixOf_self_append (l t : List Char) : l.isPrefixOf (l ++ t) = true := by
  induction l with
  | nil => simp
  | cons c cs ih => simp [List.isPrefixOf_cons₂, ih]

/-- Little-endian decimal digit characters of a number; `[]` for `0`. -/
def digitsLE : Nat → List Char
  | 0 => []
  | n+1 => Nat.digitChar ((n+1) % 10) :: digitsLE ((n+1) / 10)
decreasing_by exact Nat.div_lt_self (Nat.succ_pos n) (by decide)

theorem digitsLE_pos (n : Nat) (h : 0 < n) :
    digitsLE n = Nat.digitChar (n % 10) :: digitsLE (n / 10) := by
  cases n with
  | zero => omega
  | succ m => simp [digitsLE]

theorem digitsLE_eq_nil_iff (n : Nat) : digitsLE n = [] ↔ n = 0 := by
  cases n with
  | zero => simp [digitsLE]
  | succ m => simp [digitsLE]

theorem digitChar_inj_fin :
    ∀ a b : Fin 10, Nat.digitChar a.1 = Nat.digitChar b.1 → a = b := by decide

theorem digitChar_inj (a b : Nat) (ha : a < 10) (hb : b < 10)
    (h : Nat.digitChar a = Nat.digitChar b) : a = b :=
  congrArg Fin.val (digitChar_inj_fin ⟨a, ha⟩ ⟨b, hb⟩ h)

theorem digitsLE_inj : ∀ m n : Nat, digitsLE m = digitsLE n → m = n := by
  intro m
  induction m using Nat.strong_induction_on with
  | _ m ih =>
    intro n h
    rcases Nat.eq_zero_or_pos m with hm | hm
    · subst hm
      have h0 : digitsLE n = [] := by simpa [digitsLE] using h.symm
      have := (digitsLE_eq_nil_iff n).mp h0
      omega
    · rcases Nat.eq_zero_or_pos n with hn | hn
      · subst hn
        rw [digitsLE_pos m hm] at h
        simp [digitsLE] at h
      · rw [digitsLE_pos m hm, digitsLE_pos n hn] at h
        injection h with h1 h2
        have hmod := digitChar_inj _ _ (Nat.mod_lt m (by decide))
          (Nat.mod_lt n (by decide)) h1
        have hdiv := ih (m / 10) (Nat.div_lt_self hm (by decide)) (n / 10) h2
        omega

theorem toDigitsCore_eq (fuel : Nat) :
    ∀ n acc, 0 < n → n ≤ fuel →
      Nat.toDigitsCore 10 fuel n acc = (digitsLE n).reverse ++ acc := by
  induction fuel with
  | zero => intro n acc h1 h2; omega
  | succ fuel ih =>
    intro n acc h1 h2
    by_cases h10 : n / 10 = 0
    · have hd : digitsLE n = [Nat.digitChar (n % 10)] := by
        rw [digitsLE_pos n h1, h10]
        simp [digitsLE]
      simp [Nat.toDigitsCore, h10, hd]
    · have hpos : 0 < n / 10 := Nat.pos_of_ne_zero h10
      have hle : n / 10 ≤ fuel := by
        have := Nat.div_lt_self h1 (show 1 < 10 by decide)
        omega
      have hstep : Nat.toDigitsCore 10 (fuel+1) n acc
          = Nat.toDigitsCore 10 fuel (n / 10) (Nat.digitChar (n % 10) :: acc) := by
        simp [Nat.toDigitsCore, h10]
      rw [hstep, ih (n / 10) _ hpos hle, digitsLE_pos n h1]
      simp

theorem asString_inj (l1 l2 : List Char) (h : l1.asString = l2.asString) :
    l1 = l2 := by
  have := congrArg String.data h
  simpa [List.asString] using this

theorem repr_pos_eq (n : Nat) (h : 0 < n) :
    Nat.repr n = ((digitsLE n).reverse).asString := by
  unfold Nat.repr Nat.toDigits
  rw [toDigitsCore_eq (n+1) n [] h (Nat.le_succ n)]
  simp

theorem digitsLE_ne_zero_singleton (n : Nat) (hn : 0 < n)
    (h : digitsLE n = [Nat.digitChar 0]) : False := by
  rw [digitsLE_pos n hn] at h
  injection h with h1 h2
  have := digitChar_inj _ _ (Nat.mod_lt n (by decide)) (by decide) h1
  have := (digitsLE_eq_nil_iff (n / 10)).mp h2
  omega

theorem nat_repr_injective (m n : Nat) (h : Nat.repr m = Nat.repr n) : m = n := by
  rcases Nat.eq_zero_or_pos m with hm | hm
  · rcases Nat.eq_zero_or_pos n with hn | hn
    · omega
    · exfalso
      subst hm
      rw [repr_pos_eq n hn] at h
      have h0 : Nat.repr 0 = List.asString [Nat.digitChar 0] := by rfl
      have hl := asString_inj _ _ (h0.symm.trans h)
      have : digitsLE n = [Nat.digitChar 0] := by
        have := congrArg List.reverse hl
        simpa using this.symm
      exact digitsLE_ne_zero_singleton n hn this
  · rcases Nat.eq_zero_or_pos n with hn | hn
    · exfalso
      subst hn
      rw [repr_pos_eq m hm] at h
      have h0 : Nat.repr 0 = List.asString [Nat.digitChar 0] := by rfl
      have hl := asString_inj _ _ (h.trans h0)
      have : digitsLE m = [Nat.digitChar 0] := by
        have := congrArg List.reverse hl
        simpa using this
      exact digitsLE_ne_zero_singleton m hm this
    · rw [repr_pos_eq m hm, repr_pos_eq n hn] at h
      have hl := asString_inj _ _ h
      have := List.reverse_injective hl
      exact digitsLE_inj m n this

theorem string_assoc (a b c : String) : a ++ b ++ c = a ++ (b ++ c) := by
  apply String.ext
  simp [String.data_append]

theorem string_append_cancel_left (a b c : String) (h : a ++ b = a ++ c) :
    b = c := by
  have hd := congrArg String.data h
  simp [String.data_append] at hd
  exact String.ext hd

theorem pyStartsWith_append (p t : String) : pyStartsWith (p ++ t) p = true := by
  have : (p ++ t).data = p.data ++ t.data := by simp [String.data_append]
  simp [pyStartsWith, this, isPrefixOf_self_append]

theorem lookup_eq_none_of_not_mem (l : Listener) (k : String)
    (h : k ∉ keys l) : lookupKey l k = none := by
  induction l with
  | nil => rfl
  | cons kv rest ih =>
    obtain ⟨k0, v0⟩ := kv
    simp [keys] at h
    have h1 : ¬ (k0 = k) := fun e => h.1 e.symm
    simp [lookupKey, h1]
    exact ih (by simpa [keys] using h.2)

theorem lookup_setKey_self (l : Listener) (k : String) (v : Nat) :
    lookupKey (setKey l k v) k = some v := by
  induction l with
  | nil => simp [setKey, lookupKey]
  | cons kv rest ih =>
    obtain ⟨k0, v0⟩ := kv
    by_cases h : k0 = k
    · simp [setKey, h, lookupKey]
    · simp [setKey, h, lookupKey, ih]

theorem lookup_removeKey_self (l : Listener) (k : String)
    (hnd : (keys l).Nodup) : lookupKey (removeKey l k) k = none := by
  induction l with
  | nil => rfl
  | cons kv rest ih =>
    obtain ⟨k0, v0⟩ := kv
    simp [keys, List.nodup_cons] at hnd
    by_cases h : k0 = k
    · subst h
      simp [removeKey]
      exact lookup_eq_none_of_not_mem rest k0 (by simpa [keys] using hnd.1)
    · simp [removeKey, h, lookupKey]
      exact ih hnd.2

theorem hasKey_eq_true_iff (l : Listener) (k : String) :
    hasKey l k = true ↔ k ∈ keys l := by
  induction l with
  | nil => simp [hasKey, lookupKey, keys]
  | cons kv rest ih =>
    obtain ⟨k0, v0⟩ := kv
    by_cases h : k0 = k
    · subst h
      simp [hasKey, lookupKey, keys]
    · have h2 : ¬ (k = k0) := fun e => h e.symm
      simp [hasKey, lookupKey, keys, h, h2] at ih ⊢
      exact ih

/-! Claim theorems. -/

/-- C1 counterexample: the correlation token is NOT always fresh.  Starting
from an empty registry on a connected client, two `emit`s with callbacks
register tokens `e_ask_0` and `e_ask_1`; the reply to the first consumes
`e_ask_0`; the next `emit` with a callback then counts one key with the
`e_ask` prefix and synthesizes `e_ask_1` again, which is exactly the key of
the still-pending second request, and registering the new callback replaces
that pending one-shot entry. -/
theorem askToken_collision_cex :
    ((emit ⟨[], true⟩ "e" Data.null (some 10) true).1.listener
      = [("e_ask_0", 10)]) ∧
    ((emit ⟨[("e_ask_0", 10)], true⟩ "e" Data.null (some 11) true).1.listener
      = [("e_ask_0", 10), ("e_ask_1", 11)]) ∧
    ((handle_message [("e_ask_0", 10), ("e_ask_1", 11)]
        ⟨some "e", Data.null, some "e_ask_0"⟩ (fun _ => false)).1
      = [("e_ask_1", 11)]) ∧
    (askToken [("e_ask_1", 11)] "e" = "e_ask_1") ∧
    (hasKey [("e_ask_1", 11)] (askToken [("e_ask_1", 11)] "e") = true) ∧
    ((emit ⟨[("e_ask_1", 11)], true⟩ "e" Data.null (some 12) true).1.listener
      = [("e_ask_1", 12)]) := by
  decide

/-- C1 amended: the token `"<event>_ask_<n>"` (with `n` the number of
currently registered keys carrying the `"<event>_ask"` prefix) is fresh
provided the registered keys with that prefix are exactly the tokens of
index `i < n` — i.e. as long as no token of that family has been consumed
out of order.  (The counterexample shows freshness fails without this
proviso.) -/
theorem askToken_fresh_of_contiguous (l : Listener) (event : String)
    (hcontig : ∀ k, k ∈ keys l → pyStartsWith k (event ++ "_ask") = true →
      ∃ i, i < askCount l (event ++ "_ask")
        ∧ k = event ++ "_ask" ++ "_" ++ Nat.repr i) :
    hasKey l (askToken l event) = false := by
  cases hb : hasKey l (askToken l event) with
  | false => rfl
  | true =>
    exfalso
    have hmem : askToken l event ∈ keys l := (hasKey_eq_true_iff l _).mp hb
    have hpre : pyStartsWith (askToken l event) (event ++ "_ask") = true := by
      have hshape : askToken l event
          = (event ++ "_ask")
            ++ ("_" ++ Nat.repr (askCount l (event ++ "_ask"))) := by
        rw [← string_assoc]
        rfl
      rw [hshape]
      exact pyStartsWith_append _ _
    obtain ⟨i, hi, heq⟩ := hcontig _ hmem hpre
    have htok : event ++ "_ask" ++ "_"
          ++ Nat.repr (askCount l (event ++ "_ask"))
        = event ++ "_ask" ++ "_" ++ Nat.repr i := heq
    have hrepr : Nat.repr (askCount l (event ++ "_ask")) = Nat.repr i :=
      string_append_cancel_left _ _ _ htok
    have := nat_repr_injective _ _ hrepr
    omega

/-- C1 amended, witness: with exactly the token of index 0 registered, the
next synthesized token (index 1) is fresh. -/
theorem askToken_fresh_of_contiguous_witness :
    hasKey [("e_ask_0", 5)] (askToken [("e_ask_0", 5)] "e") = false := by
  apply askToken_fresh_of_contiguous
  intro k hk hp
  have hk1 : k = "e_ask_0" := by simpa [keys] using hk
  subst hk1
  exact ⟨0, by decide, by decide⟩

/-- C2 counterexample: a second frame carrying the same callback token can
still fire a handler, in two ways.  (a) Fall-through: handler 1 is a
persistent listener for event `ev`; an `emit` registers the one-shot token
`q_ask_0` for handler 0; the first reply consumes it; a second frame with
the same `callback="q_ask_0"` but `event="ev"` then falls through to the
event branch and fires handler 1.  (b) Raising handler: when handler 0
raises, the `except` clause skips `self.un`, the registration survives the
first frame, and a second frame with the same token invokes handler 0 a
second time — so neither "exactly once" nor "the second frame fires no
handler at all" holds. -/
theorem one_shot_refire_cex :
    ((emit ⟨[("ev", 1)], true⟩ "q" Data.null (some 0) true).1.listener
      = [("ev", 1), ("q_ask_0", 0)]) ∧
    (handle_message [("ev", 1), ("q_ask_0", 0)]
        ⟨some "x", Data.null, some "q_ask_0"⟩ (fun _ => false)
      = ([("ev", 1)], [(0, Data.null)])) ∧
    ((handle_message [("ev", 1)] ⟨some "ev", Data.null, some "q_ask_0"⟩
        (fun _ => false)).2 = [(1, Data.null)]) ∧
    (handle_message [("q_ask_0", 0)] ⟨some "x", Data.null, some "q_ask_0"⟩
        (fun _ => true)
      = ([("q_ask_0", 0)], [(0, Data.null)])) ∧
    ((handle_message (handle_message [("q_ask_0", 0)]
          ⟨some "x", Data.null, some "q_ask_0"⟩ (fun _ => true)).1
        ⟨some "x", Data.null, some "q_ask_0"⟩ (fun _ => true)).2
      = [(0, Data.null)]) := by
  decide

/-- C2 amended: for a registered token `T`, the first frame with
`callback=T` invokes that handler; when the handler returns normally the
registration is removed and a later frame with `callback=T` fires no
handler registered under `T` — it is dispatched exactly as if it carried
no callback at all, so it can still reach a persistent listener registered
under its event field; when the handler raises, the `except` clause skips
`un` and the registration (hence a possible re-fire) survives. -/
theorem one_shot_correlation (l : Listener) (T : String) (h : Nat) (d : Data)
    (ev : Option String) (raises : Nat → Bool) (hT : ¬ (T = ""))
    (hl : lookupKey l T = some h) (hnd : (keys l).Nodup) :
    (raises h = false →
      handle_message l ⟨ev, d, some T⟩ raises = (removeKey l T, [(h, d)]) ∧
      lookupKey (removeKey l T) T = none ∧
      (∀ f2 : Frame, f2.callback = some T →
        handle_message (removeKey l T) f2 raises
          = handle_message (removeKey l T) ⟨f2.event, f2.data, none⟩ raises)) ∧
    (raises h = true →
      handle_message l ⟨ev, d, some T⟩ raises = (l, [(h, d)])) := by
  have hgone : lookupKey (removeKey l T) T = none := lookup_removeKey_self l T hnd
  constructor
  · intro hok
    refine ⟨?_, hgone, ?_⟩
    · simp [handle_message, cbKey, hT, hl, hok]
    · intro f2 hcb
      have hc2 : cbKey f2 = some T := by simp [cbKey, hcb, hT]
      have hlhs : handle_message (removeKey l T) f2 raises
          = eventDispatch (removeKey l T) f2 := by
        simp [handle_message, hc2, hgone]
      have hrhs : handle_message (removeKey l T) ⟨f2.event, f2.data, none⟩ raises
          = eventDispatch (removeKey l T) ⟨f2.event, f2.data, none⟩ := by
        simp [handle_message, cbKey]
      rw [hlhs, hrhs]
      rfl
  · intro hraise
    simp [handle_message, cbKey, hT, hl, hraise]

/-- C2 amended, witness: a normally-returning handler, exercised on a
concrete registry. -/
theorem one_shot_correlation_witness :
    (((fun _ => false : Nat → Bool) 0 = false →
      handle_message [("q_ask_0", 0), ("ev", 1)]
          ⟨some "x", Data.null, some "q_ask_0"⟩ (fun _ => false)
        = (removeKey [("q_ask_0", 0), ("ev", 1)] "q_ask_0", [(0, Data.null)]) ∧
      lookupKey (removeKey [("q_ask_0", 0), ("ev", 1)] "q_ask_0") "q_ask_0"
        = none ∧
      (∀ f2 : Frame, f2.callback = some "q_ask_0" →
        handle_message (removeKey [("q_ask_0", 0), ("ev", 1)] "q_ask_0") f2
            (fun _ => false)
          = handle_message (removeKey [("q_ask_0", 0), ("ev", 1)] "q_ask_0")
              ⟨f2.event, f2.data, none⟩ (fun _ => false))) ∧
    ((fun _ => false : Nat → Bool) 0 = true →
      handle_message [("q_ask_0", 0), ("ev", 1)]
          ⟨some "x", Data.null, some "q_ask_0"⟩ (fun _ => false)
        = ([("q_ask_0", 0), ("ev", 1)], [(0, Data.null)]))) :=
  one_shot_correlation [("q_ask_0", 0), ("ev", 1)] "q_ask_0" 0 Data.null
    (some "x") (fun _ => false) (by decide) (by decide) (by decide)

/-- C9 counterexample: the removal is not unconditional.  The persistent
listener for `news` (handler 3) is invoked by a frame with
`callback="news"`, but because the handler raises, the `except Exception`
clause catches before `self.un(callback_id)` runs, and the listener is
still registered afterwards. -/
theorem callback_raise_keeps_listener_cex :
    (handle_message [("news", 3)] ⟨some "x", Data.null, some "news"⟩
        (fun _ => true)
      = ([("news", 3)], [(3, Data.null)])) ∧
    hasKey (handle_message [("news", 3)] ⟨some "x", Data.null, some "news"⟩
        (fun _ => true)).1 "news" = true := by
  decide

/-- C9 amended: a single inbound frame whose `callback` field equals a key
registered via `on()` invokes that handler, and — when the handler returns
normally — removes the registration: the registry draws no distinction
between persistent event names and one-shot correlation tokens, so the
persistent listener for `E` is unregistered; a raising handler leaves it
registered. -/
theorem callback_consumes_persistent_listener (l : Listener) (E : String)
    (h : Nat) (d : Data) (ev : Option String) (raises : Nat → Bool)
    (hE : ¬ (E = "")) (hl : lookupKey l E = some h) (hnd : (keys l).Nodup)
    (hok : raises h = false) :
    handle_message l ⟨ev, d, some E⟩ raises = (removeKey l E, [(h, d)]) ∧
    lookupKey (removeKey l E) E = none := by
  constructor
  · simp [handle_message, cbKey, hE, hl, hok]
  · exact lookup_removeKey_self l E hnd

/-- C9 amended, witness: the persistent listener registered under plain
event name `news`, whose handler returns normally, is fired and
unregistered by one frame with `callback="news"`. -/
theorem callback_consumes_persistent_listener_witness :
    handle_message [("news", 3)] ⟨some "x", Data.null, some "news"⟩
        (fun _ => false)
      = (removeKey [("news", 3)] "news", [(3, Data.null)]) ∧
    lookupKey (removeKey [("news", 3)] "news") "news" = none :=
  callback_consumes_persistent_listener [("news", 3)] "news" 3 Data.null
    (some "x") (fun _ => false) (by decide) (by decide) (by decide) (by decide)

/-- C7: `emit` on a disconnected client returns `false` and has no side
effect: the state (in particular the listener registry) is unchanged and no
frame is sent, whether or not a callback was supplied. -/
theorem emit_disconnected_noop (l : Listener) (ev : String) (d : Data)
    (cb : Option Nat) (sendOk : Bool) :
    emit ⟨l, false⟩ ev d cb sendOk = (⟨l, false⟩, false, []) := by
  simp [emit]

/-- C10: `emit` on a connected client with a callback whose send raises
returns `false`, but the one-shot callback registered under the freshly
synthesized token stays in the registry — the registration is not rolled
back on send failure. -/
theorem emit_send_failure_keeps_registration (l : Listener) (ev : String)
    (d : Data) (cb : Nat) :
    emit ⟨l, true⟩ ev d (some cb) false
      = (⟨setKey l (askToken l ev) cb, true⟩, false, []) ∧
    lookupKey (setKey l (askToken l ev) cb) (askToken l ev) = some cb := by
  constructor
  · simp [emit]
  · exact lookup_setKey_self l (askToken l ev) cb

/-- C3: a server handler on a frame with a truthy callback token that calls
the reply capability once with `X` and returns a non-empty `Y`, on an open
websocket, causes exactly two frames to be sent: one with the original
event, `data=X` and the original token, and one with the original event,
`data=Y` and no callback. -/
theorem todo_dual_send (ev : Option String) (d : Data) (tok : String)
    (X Y : Data) (htok : ¬ (tok = "")) (hY : dataTruthy Y = true) :
    todo false ⟨ev, d, some tok⟩ ⟨[X], HandlerOutcome.ret Y⟩
      = [⟨ev, X, some tok⟩, ⟨ev, Y, none⟩] := by
  simp [todo, strTruthy, htok, hY]

/-- C3 witness. -/
theorem todo_dual_send_witness :
    todo false ⟨some "go", Data.null, some "go_ask_0"⟩
        ⟨[Data.str "x"], HandlerOutcome.ret (Data.str "y")⟩
      = [⟨some "go", Data.str "x", some "go_ask_0"⟩,
         ⟨some "go", Data.str "y", none⟩] :=
  todo_dual_send (some "go") Data.null "go_ask_0" (Data.str "x")
    (Data.str "y") (by decide) (by decide)

/-- C4 counterexample: with two registered connections both matching the
(absent) filter, a send failure on the first prevents the second from
receiving the frame — the exception aborts the loop, nothing is delivered. -/
theorem broadcast_abort_cex :
    broadcast [⟨0, true⟩, ⟨1, false⟩] none = ([], some 0) ∧
    ¬ (1 ∈ (broadcast [⟨0, true⟩, ⟨1, false⟩] none).1) := by
  decide

theorem broadcastGo_eq (conns : List Conn) :
    broadcastGo conns
      = ((conns.takeWhile fun c => !c.fails).map Conn.id,
        ((conns.dropWhile fun c => !c.fails).head?).map Conn.id) := by
  induction conns with
  | nil => rfl
  | cons c rest ih =>
    by_cases h : c.fails
    · simp [broadcastGo, h, List.takeWhile_cons, List.dropWhile_cons]
    · simp [broadcastGo, h, List.takeWhile_cons, List.dropWhile_cons, ih]

/-- C4 amended: `broadcast` delivers the frame to exactly the matched
connections strictly before the first failing one, in order; the failure
aborts the loop (the first failing matched connection is where the
exception is raised), so matched connections after it receive nothing. -/
theorem broadcast_aborts_at_first_failure (conns : List Conn)
    (filter : Option (Conn → Bool)) :
    broadcast conns filter
      = (((matchedConns conns filter).takeWhile fun c => !c.fails).map Conn.id,
        (((matchedConns conns filter).dropWhile fun c => !c.fails).head?).map
          Conn.id) := by
  unfold broadcast
  exact broadcastGo_eq _

/-- C5: whenever the upgrade was accepted, the receive loop's `finally`
cleanup runs no matter how the loop ended (end of stream, logged close or
error messages, or an exception escaping the loop body): the connection id
is no longer in the registry and the websocket ends closed. -/
theorem init_websocket_loop_cleanup (registry : List Nat) (id : Nat)
    (steps : List LoopStep) (closedAtEnd : Bool) :
    id ∉ (init_websocket registry id true steps closedAtEnd).1 ∧
    (init_websocket registry id true steps closedAtEnd).2
      = InitOutcome.finished true (runLoop steps) := by
  constructor
  · simp [init_websocket, popId, List.mem_filter]
  · simp [init_websocket]

/-- C6 counterexample: an upgrade request that fails validation does change
the registry — starting from the empty registry, the failed call returns
the 400 outcome with the fresh id still registered. -/
theorem upgrade_failure_registers_cex :
    (init_websocket [] 7 false [] false).1 = [7] ∧
    (init_websocket [] 7 false [] false).2 = InitOutcome.badRequest ∧
    (init_websocket [] 7 false [] false).1 ≠ [] := by
  decide

/-- C6 amended: on a failed upgrade validation the server returns the 400
client error, but the connection id was already inserted into the registry
before the check and is not explicitly removed on this path (the source
registry only reclaims it because it holds weak references). -/
theorem upgrade_failure_leaves_registration (registry : List Nat) (id : Nat)
    (steps : List LoopStep) (closedAtEnd : Bool) :
    init_websocket registry id false steps closedAtEnd
      = (insertId registry id, InitOutcome.badRequest) ∧
    id ∈ (init_websocket registry id false steps closedAtEnd).1 := by
  constructor
  · rfl
  · show id ∈ insertId registry id
    unfold insertId
    by_cases h : id ∈ registry <;> simp [h]

/-- C8: calling connect on an already-running client changes nothing — no
new session, no new connect/receive loop; and from an idle client, any
positive number of connect calls creates exactly one session and enters
exactly one loop, so at most one receive loop is ever active. -/
theorem connect_idempotent_guard (sc lc k : Nat) :
    connectGuard ⟨true, sc, lc⟩ = ⟨true, sc, lc⟩ ∧
    connectGuard^[k + 1] ⟨false, sc, lc⟩ = ⟨true, sc + 1, lc + 1⟩ := by
  have hfix : connectGuard ⟨true, sc + 1, lc + 1⟩ = ⟨true, sc + 1, lc + 1⟩ := by
    simp [connectGuard]
  constructor
  · simp [connectGuard]
  · rw [Function.iterate_succ_apply]
    have h1 : connectGuard ⟨false, sc, lc⟩ = ⟨true, sc + 1, lc + 1⟩ := by
      simp [connectGuard]
    rw [h1]
    exact Function.iterate_fixed hfix k

end KitHttpModel
